import Mathlib

/-!
Verification of the casepulse-backend cause-list scraping pipeline.

The Python sources (src/scrapers/bombay_high_court.py, nclat.py and the
checkpoint copies of supreme_court.py, delhi_high_court.py, cerc.py) are
shallowly embedded here.  Strings are modelled as Lean `String`/`List Char`
with the ASCII restrictions of the regular-expression classes:
`\s` is modelled by `pySpace`, `\w` by `pyWord`, `str.lower()` by
`Char.toLower` mapped over the characters.  Effectful steps (network,
browser, PDF parsing, the OpenAI extraction call) are modelled by explicit
outcome parameters (`Except`, `Option`) passed to the embedded functions.
-/

/-- Python regex class `\s` restricted to ASCII: space, tab, newline,
carriage return, vertical tab, form feed. -/
def pySpace (c : Char) : Bool :=
  c = ' ' || c = '\t' || c = '\n' || c = '\r' || c = '\x0b' || c = '\x0c'

/-- Python regex class `\w` restricted to ASCII: letters, digits, underscore. -/
def pyWord (c : Char) : Bool :=
  c.isAlphanum || c = '_'

/-- Remove leading characters satisfying `pySpace` (the front half of
Python `str.strip()`). -/
def pyDropLead : List Char → List Char
  | [] => []
  | c :: t => if pySpace c then pyDropLead t else c :: t

/-- Remove trailing characters satisfying `pySpace` (the back half of
Python `str.strip()`). -/
def pyDropTrail : List Char → List Char
  | [] => []
  | c :: t =>
    match pyDropTrail t with
    | [] => if pySpace c then [] else [c]
    | r => c :: r

/-- Python `str.strip()` on a character list. -/
def pyStrip (cs : List Char) : List Char :=
  pyDropTrail (pyDropLead cs)

/-- Python `re.sub(r"\s+", " ", s)`: replace every maximal run of
whitespace by a single space.  The boolean flag records whether the
previous character was whitespace. -/
def pyCollapseAux : Bool → List Char → List Char
  | _, [] => []
  | prevSp, c :: t =>
    if pySpace c then
      if prevSp then pyCollapseAux true t
      else ' ' :: pyCollapseAux true t
    else c :: pyCollapseAux false t

/-- Python `re.sub(r"\s+", " ", s)` on a character list. -/
def pyCollapse (cs : List Char) : List Char :=
  pyCollapseAux false cs

/-- Python substring test `needle in hay` on character lists. -/
def containsSub : List Char → List Char → Bool
  | needle, [] => needle.isEmpty
  | needle, c :: t => needle.isPrefixOf (c :: t) || containsSub needle t

/-- Python `str.split()` (split on whitespace runs, dropping empty pieces):
auxiliary accumulating the current word reversed. -/
def splitWsAux (cur : List Char) : List Char → List (List Char)
  | [] => if cur.isEmpty then [] else [cur.reverse]
  | c :: t =>
    if pySpace c then
      if cur.isEmpty then splitWsAux [] t
      else cur.reverse :: splitWsAux [] t
    else splitWsAux (c :: cur) t

/-- Python `str.split()` on a character list. -/
def splitWs (cs : List Char) : List (List Char) :=
  splitWsAux [] cs

/-- A character list is in collapsed form relative to the flag (which says
whether a whitespace character is forbidden at the head): every whitespace
character is a plain space, and no two spaces are adjacent. -/
def collapsedAfter : Bool → List Char → Bool
  | _, [] => true
  | p, c :: t =>
    if pySpace c then (!p && c = ' ') && collapsedAfter true t
    else collapsedAfter false t

theorem pyDropLead_cons_space {c : Char} (h : pySpace c = true) (t : List Char) :
    pyDropLead (c :: t) = pyDropLead t := by
  simp [pyDropLead, h]

theorem pyDropLead_cons_nonspace {c : Char} (h : pySpace c = false) (t : List Char) :
    pyDropLead (c :: t) = c :: t := by
  simp [pyDropLead, h]

theorem pyCollapseAux_true_space {c : Char} (h : pySpace c = true) (t : List Char) :
    pyCollapseAux true (c :: t) = pyCollapseAux true t := by
  simp [pyCollapseAux, h]

theorem pyCollapseAux_false_space {c : Char} (h : pySpace c = true) (t : List Char) :
    pyCollapseAux false (c :: t) = ' ' :: pyCollapseAux true t := by
  simp [pyCollapseAux, h]

theorem pyCollapseAux_nonspace {c : Char} (h : pySpace c = false) (b : Bool) (t : List Char) :
    pyCollapseAux b (c :: t) = c :: pyCollapseAux false t := by
  simp [pyCollapseAux, h]

theorem collapsedAfter_space_iff {c : Char} (h : pySpace c = true) (b : Bool) (t : List Char) :
    collapsedAfter b (c :: t) = true ↔ (b = false ∧ c = ' ' ∧ collapsedAfter true t = true) := by
  cases b <;> simp [collapsedAfter, h]

theorem collapsedAfter_nonspace {c : Char} (h : pySpace c = false) (b : Bool) (t : List Char) :
    collapsedAfter b (c :: t) = collapsedAfter false t := by
  simp [collapsedAfter, h]

theorem pyDropTrail_cons_nil {c : Char} {t : List Char} (h : pyDropTrail t = []) :
    pyDropTrail (c :: t) = if pySpace c then [] else [c] := by
  simp only [pyDropTrail, h]

theorem pyDropTrail_cons_cons {c : Char} {t : List Char} {e : Char} {r : List Char}
    (h : pyDropTrail t = e :: r) :
    pyDropTrail (c :: t) = c :: e :: r := by
  simp only [pyDropTrail, h]

theorem collapsedAfter_mono : ∀ {cs : List Char},
    collapsedAfter true cs = true → collapsedAfter false cs = true := by
  intro cs h
  cases cs with
  | nil => rfl
  | cons c t =>
    cases hc : pySpace c with
    | true =>
      rw [collapsedAfter_space_iff hc] at h
      cases h.1
    | false =>
      rw [collapsedAfter_nonspace hc] at h ⊢
      exact h

theorem collapsedAfter_pyCollapseAux (cs : List Char) :
    ∀ b, collapsedAfter b (pyCollapseAux b cs) = true := by
  induction cs with
  | nil => intro b; rfl
  | cons c t ih =>
    intro b
    cases hc : pySpace c with
    | true =>
      cases b with
      | true =>
        rw [pyCollapseAux_true_space hc]
        exact ih true
      | false =>
        rw [pyCollapseAux_false_space hc]
        rw [collapsedAfter_space_iff (by decide)]
        exact ⟨rfl, rfl, ih true⟩
    | false =>
      rw [pyCollapseAux_nonspace hc, collapsedAfter_nonspace hc]
      exact ih false

theorem pyCollapseAux_of_collapsed : ∀ {cs : List Char} (b : Bool),
    collapsedAfter b cs = true → pyCollapseAux b cs = cs := by
  intro cs
  induction cs with
  | nil => intro b _; rfl
  | cons c t ih =>
    intro b h
    cases hc : pySpace c with
    | true =>
      rw [collapsedAfter_space_iff hc] at h
      obtain ⟨hb, hsp, ht⟩ := h
      subst hb
      rw [pyCollapseAux_false_space hc, ih true ht, hsp]
    | false =>
      rw [collapsedAfter_nonspace hc] at h
      rw [pyCollapseAux_nonspace hc, ih false h]

theorem mem_pyCollapseAux {c : Char} : ∀ {cs : List Char} (b : Bool),
    c ∈ pyCollapseAux b cs → c = ' ' ∨ (c ∈ cs ∧ pySpace c = false) := by
  intro cs
  induction cs with
  | nil =>
    intro b h
    exact absurd h (by simp [pyCollapseAux])
  | cons d t ih =>
    intro b h
    cases hd : pySpace d with
    | true =>
      cases b with
      | true =>
        rw [pyCollapseAux_true_space hd] at h
        exact (ih true h).imp id (fun hm => ⟨List.mem_cons_of_mem _ hm.1, hm.2⟩)
      | false =>
        rw [pyCollapseAux_false_space hd] at h
        rcases List.mem_cons.mp h with h1 | h1
        · exact Or.inl h1
        · exact (ih true h1).imp id (fun hm => ⟨List.mem_cons_of_mem _ hm.1, hm.2⟩)
    | false =>
      rw [pyCollapseAux_nonspace hd] at h
      rcases List.mem_cons.mp h with h1 | h1
      · subst h1
        exact Or.inr ⟨List.mem_cons_self _ _, hd⟩
      · exact (ih false h1).imp id (fun hm => ⟨List.mem_cons_of_mem _ hm.1, hm.2⟩)

theorem mem_pyDropLead {c : Char} : ∀ {cs : List Char}, c ∈ pyDropLead cs → c ∈ cs := by
  intro cs
  induction cs with
  | nil => intro h; exact h
  | cons d t ih =>
    intro h
    cases hd : pySpace d with
    | true =>
      rw [pyDropLead_cons_space hd] at h
      exact List.mem_cons_of_mem _ (ih h)
    | false =>
      rw [pyDropLead_cons_nonspace hd] at h
      exact h

theorem mem_pyDropTrail {c : Char} : ∀ {cs : List Char}, c ∈ pyDropTrail cs → c ∈ cs := by
  intro cs
  induction cs with
  | nil => intro h; exact h
  | cons d t ih =>
    intro h
    rcases hr : pyDropTrail t with _ | ⟨e, u⟩
    · rw [pyDropTrail_cons_nil hr] at h
      cases hd : pySpace d with
      | true =>
        rw [if_pos hd] at h
        exact absurd h (by simp)
      | false =>
        rw [if_neg (by simp [hd])] at h
        have h1 : c = d := by simpa using h
        subst h1
        exact List.mem_cons_self _ _
    · rw [pyDropTrail_cons_cons hr] at h
      rcases List.mem_cons.mp h with h1 | h1
      · subst h1
        exact List.mem_cons_self _ _
      · have h2 : c ∈ pyDropTrail t := by rw [hr]; exact h1
        exact List.mem_cons_of_mem _ (ih h2)

theorem mem_pyStrip {c : Char} {cs : List Char} (h : c ∈ pyStrip cs) : c ∈ cs :=
  mem_pyDropLead (mem_pyDropTrail h)

theorem collapsedAfter_pyDropTrail : ∀ {cs : List Char} (b : Bool),
    collapsedAfter b cs = true → collapsedAfter b (pyDropTrail cs) = true := by
  intro cs
  induction cs with
  | nil => intro b h; exact h
  | cons c t ih =>
    intro b h
    rcases hr : pyDropTrail t with _ | ⟨e, u⟩
    · rw [pyDropTrail_cons_nil hr]
      cases hc : pySpace c with
      | true =>
        rw [if_pos rfl]
        rfl
      | false =>
        rw [if_neg (by simp), collapsedAfter_nonspace hc]
        rfl
    · rw [pyDropTrail_cons_cons hr]
      cases hc : pySpace c with
      | true =>
        rw [collapsedAfter_space_iff hc] at h
        obtain ⟨hb, hsp, ht⟩ := h
        have h2 := ih true ht
        rw [hr] at h2
        subst hb
        rw [collapsedAfter_space_iff hc]
        exact ⟨rfl, hsp, h2⟩
      | false =>
        rw [collapsedAfter_nonspace hc] at h
        have h2 := ih false h
        rw [hr] at h2
        rw [collapsedAfter_nonspace hc]
        exact h2

theorem collapsedAfter_pyDropLead : ∀ {cs : List Char},
    collapsedAfter false cs = true → collapsedAfter false (pyDropLead cs) = true := by
  intro cs
  induction cs with
  | nil => intro h; exact h
  | cons c t ih =>
    intro h
    cases hc : pySpace c with
    | true =>
      rw [collapsedAfter_space_iff hc] at h
      rw [pyDropLead_cons_space hc]
      exact ih (collapsedAfter_mono h.2.2)
    | false =>
      rw [pyDropLead_cons_nonspace hc]
      exact h

theorem collapsedAfter_pyStrip {cs : List Char}
    (h : collapsedAfter false cs = true) :
    collapsedAfter false (pyStrip cs) = true :=
  collapsedAfter_pyDropTrail false (collapsedAfter_pyDropLead h)

theorem pyDropLead_head : ∀ {cs : List Char} {c : Char} {t : List Char},
    pyDropLead cs = c :: t → pySpace c = false := by
  intro cs
  induction cs with
  | nil =>
    intro c t h
    exact absurd h (by simp [pyDropLead])
  | cons d u ih =>
    intro c t h
    cases hd : pySpace d with
    | true =>
      rw [pyDropLead_cons_space hd] at h
      exact ih h
    | false =>
      rw [pyDropLead_cons_nonspace hd] at h
      injection h with h1 _
      subst h1
      exact hd

theorem pyDropTrail_head_eq (c : Char) (t : List Char) :
    pyDropTrail (c :: t) ≠ [] → ∃ r', pyDropTrail (c :: t) = c :: r' := by
  intro hne
  rcases hr : pyDropTrail t with _ | ⟨e, u⟩
  · rw [pyDropTrail_cons_nil hr] at hne ⊢
    cases hc : pySpace c with
    | true =>
      rw [if_pos hc] at hne
      exact absurd rfl hne
    | false =>
      rw [if_neg (by simp [hc])]
      exact ⟨[], rfl⟩
  · rw [pyDropTrail_cons_cons hr]
    exact ⟨e :: u, rfl⟩

theorem pyDropTrail_idem : ∀ cs : List Char,
    pyDropTrail (pyDropTrail cs) = pyDropTrail cs
  | [] => rfl
  | c :: t => by
    rcases hr : pyDropTrail t with _ | ⟨e, u⟩
    · rw [pyDropTrail_cons_nil hr]
      cases hc : pySpace c with
      | true =>
        rw [if_pos rfl]
        rfl
      | false =>
        rw [if_neg (by simp), pyDropTrail_cons_nil (show pyDropTrail [] = [] from rfl),
          if_neg (by simp [hc])]
    · rw [pyDropTrail_cons_cons hr]
      have h2 : pyDropTrail (e :: u) = e :: u := by
        conv_lhs => rw [← hr]
        rw [pyDropTrail_idem t, hr]
      rw [pyDropTrail_cons_cons h2]

theorem pyStrip_idem (cs : List Char) : pyStrip (pyStrip cs) = pyStrip cs := by
  unfold pyStrip
  rcases ha : pyDropLead cs with _ | ⟨c, t⟩
  · rfl
  · rcases hb : pyDropTrail (c :: t) with _ | ⟨e, r⟩
    · rfl
    · have hc : pySpace c = false := pyDropLead_head ha
      obtain ⟨r', hr'⟩ := pyDropTrail_head_eq c t (by rw [hb]; simp)
      rw [hb] at hr'
      injection hr' with h1 _
      subst h1
      rw [pyDropLead_cons_nonspace hc, ← hb, pyDropTrail_idem]

theorem charToNat_ofNat_valid (n : Nat) (h : n.isValidChar) :
    (Char.ofNat n).toNat = n := by
  unfold Char.ofNat
  rw [dif_pos h]
  rfl

theorem toLower_idem (c : Char) :
    Char.toLower (Char.toLower c) = Char.toLower c := by
  simp only [Char.toLower]
  by_cases h : c.toNat ≥ 65 ∧ c.toNat ≤ 90
  · rw [if_pos h]
    have hv : Nat.isValidChar (c.toNat + 32) := Or.inl (by omega)
    have ht : (Char.ofNat (c.toNat + 32)).toNat = c.toNat + 32 :=
      charToNat_ofNat_valid _ hv
    have hno : ¬((Char.ofNat (c.toNat + 32)).toNat ≥ 65 ∧
        (Char.ofNat (c.toNat + 32)).toNat ≤ 90) := by
      rw [ht]
      omega
    rw [if_neg hno]
  · rw [if_neg h, if_neg h]

theorem map_fixed {f : Char → Char} : ∀ {l : List Char},
    (∀ c ∈ l, f c = c) → l.map f = l := by
  intro l
  induction l with
  | nil => intro _; rfl
  | cons c t ih =>
    intro h
    simp only [List.map_cons]
    rw [h c (List.mem_cons_self _ _), ih (fun d hd => h d (List.mem_cons_of_mem _ hd))]

/-- Python `re.sub(r"[^\w\s]", " ", s)` acting on one character. -/
def pyPunctToSpace (c : Char) : Char :=
  if pyWord c || pySpace c then c else ' '

theorem pyPunctToSpace_idem (c : Char) :
    pyPunctToSpace (pyPunctToSpace c) = pyPunctToSpace c := by
  unfold pyPunctToSpace
  by_cases h : (pyWord c || pySpace c) = true
  · rw [if_pos h, if_pos h]
  · rw [if_neg h, if_pos (by decide)]

theorem toLower_space : Char.toLower ' ' = ' ' := by decide

theorem toLower_pyPunct_toLower (c : Char) :
    Char.toLower (pyPunctToSpace (Char.toLower c)) = pyPunctToSpace (Char.toLower c) := by
  unfold pyPunctToSpace
  by_cases h : (pyWord (Char.toLower c) || pySpace (Char.toLower c)) = true
  · rw [if_pos h]
    exact toLower_idem c
  · rw [if_neg h]
    exact toLower_space

theorem strip_collapse_idem (cs : List Char) :
    pyStrip (pyCollapse (pyStrip (pyCollapse cs))) = pyStrip (pyCollapse cs) := by
  have hg : collapsedAfter false (pyStrip (pyCollapse cs)) = true :=
    collapsedAfter_pyStrip (collapsedAfter_pyCollapseAux cs false)
  have hcy : pyCollapse (pyStrip (pyCollapse cs)) = pyStrip (pyCollapse cs) := by
    unfold pyCollapse
    exact pyCollapseAux_of_collapsed false hg
  rw [hcy]
  exact pyStrip_idem _

namespace Nclat

/-- `normalize` from src/scrapers/nclat.py (lines 39-43): lowercase,
replace every character outside `\w`/`\s` by a space, collapse whitespace
runs to single spaces, and strip. -/
def normalizeChars (cs : List Char) : List Char :=
  pyStrip (pyCollapse ((cs.map Char.toLower).map pyPunctToSpace))

/-- String-level wrapper for nclat's `normalize`. -/
def normalize (s : String) : String :=
  String.mk (normalizeChars s.data)

theorem normalizeChars_idem (cs : List Char) :
    normalizeChars (normalizeChars cs) = normalizeChars cs := by
  have hfix : ∀ c ∈ normalizeChars cs, Char.toLower c = c ∧ pyPunctToSpace c = c := by
    intro c hc
    have hc2 := mem_pyStrip hc
    rcases mem_pyCollapseAux false hc2 with h1 | ⟨h1, _⟩
    · subst h1
      exact ⟨toLower_space, by decide⟩
    · rcases List.mem_map.mp h1 with ⟨a, ha, hfa⟩
      rcases List.mem_map.mp ha with ⟨c0, _, hlc⟩
      subst hlc
      subst hfa
      exact ⟨toLower_pyPunct_toLower c0, pyPunctToSpace_idem _⟩
  show pyStrip (pyCollapse (((normalizeChars cs).map Char.toLower).map pyPunctToSpace)) =
    normalizeChars cs
  rw [map_fixed (fun c hc => (hfix c hc).1), map_fixed (fun c hc => (hfix c hc).2)]
  exact strip_collapse_idem ((cs.map Char.toLower).map pyPunctToSpace)

theorem normalize_idem (s : String) : normalize (normalize s) = normalize s :=
  congrArg String.mk (normalizeChars_idem s.data)

end Nclat

/-- Python `.replace("\n", " ")` acting on one character. -/
def delhiNewline (c : Char) : Char :=
  if c = '\n' then ' ' else c

namespace Delhi

/-- `normalize_text` from delhi_high_court.py (lines 33-38), character
level: lowercase, replace newlines by spaces, collapse whitespace runs,
and strip. -/
def normalizeTextChars (cs : List Char) : List Char :=
  pyStrip (pyCollapse ((cs.map Char.toLower).map delhiNewline))

/-- `normalize_text` from delhi_high_court.py (lines 33-38), including the
falsy-input guard. -/
def normalize_text (s : String) : String :=
  if s = "" then "" else String.mk (normalizeTextChars s.data)

theorem toLower_delhiNewline_toLower (c : Char) :
    Char.toLower (delhiNewline (Char.toLower c)) = delhiNewline (Char.toLower c) := by
  unfold delhiNewline
  by_cases h : Char.toLower c = '\n'
  · rw [if_pos h]
    exact toLower_space
  · rw [if_neg h]
    exact toLower_idem c

theorem normalizeTextChars_idem (cs : List Char) :
    normalizeTextChars (normalizeTextChars cs) = normalizeTextChars cs := by
  have hfix : ∀ c ∈ normalizeTextChars cs, Char.toLower c = c ∧ delhiNewline c = c := by
    intro c hc
    have hc2 := mem_pyStrip hc
    rcases mem_pyCollapseAux false hc2 with h1 | ⟨h1, hns⟩
    · subst h1
      exact ⟨toLower_space, by decide⟩
    · rcases List.mem_map.mp h1 with ⟨a, ha, hfa⟩
      rcases List.mem_map.mp ha with ⟨c0, _, hlc⟩
      constructor
      · subst hlc
        subst hfa
        exact toLower_delhiNewline_toLower c0
      · have hnl : c ≠ '\n' := by
          intro hcn
          rw [hcn] at hns
          exact absurd hns (by decide)
        unfold delhiNewline
        rw [if_neg hnl]
  show pyStrip (pyCollapse (((normalizeTextChars cs).map Char.toLower).map delhiNewline)) =
    normalizeTextChars cs
  rw [map_fixed (fun c hc => (hfix c hc).1), map_fixed (fun c hc => (hfix c hc).2)]
  exact strip_collapse_idem ((cs.map Char.toLower).map delhiNewline)

theorem normalize_text_idem (s : String) :
    normalize_text (normalize_text s) = normalize_text s := by
  by_cases hs : s = ""
  · subst hs
    rfl
  · have h1 : normalize_text s = String.mk (normalizeTextChars s.data) := by
      unfold normalize_text
      rw [if_neg hs]
    rw [h1]
    by_cases h2 : String.mk (normalizeTextChars s.data) = ""
    · rw [h2]
      rfl
    · have h3 : normalize_text (String.mk (normalizeTextChars s.data)) =
          String.mk (normalizeTextChars (normalizeTextChars s.data)) := by
        unfold normalize_text
        rw [if_neg h2]
      rw [h3]
      exact congrArg String.mk (normalizeTextChars_idem s.data)

end Delhi

namespace SC

/-- Word boundary after a match whose last character is a word character:
the next character must be a non-word character, or the string ends. -/
def boundaryAfterWord (rest : List Char) : Bool :=
  match rest with
  | [] => true
  | d :: _ => !pyWord d

/-- Word boundary after a matched `&` (a non-word character): the next
character must be a word character. -/
def boundaryAfterAmp (rest : List Char) : Bool :=
  match rest with
  | [] => false
  | d :: _ => pyWord d

/-- One attempt of `re.sub(r"\b(ors?|anr|lrs?|&)\b", "", text)` at the
current position (text already lowercased).  `prevW` says whether the
previous character is a word character; on success returns the match
length and whether the last matched character is a word character. -/
def noiseMatch (prevW : Bool) : List Char → Option (Nat × Bool)
  | 'o' :: 'r' :: rest =>
    if prevW then none
    else
      match rest with
      | 's' :: rest2 => if boundaryAfterWord rest2 then some (3, true) else none
      | _ => if boundaryAfterWord rest then some (2, true) else none
  | 'a' :: 'n' :: 'r' :: rest =>
    if prevW then none
    else if boundaryAfterWord rest then some (3, true) else none
  | 'l' :: 'r' :: rest =>
    if prevW then none
    else
      match rest with
      | 's' :: rest2 => if boundaryAfterWord rest2 then some (3, true) else none
      | _ => if boundaryAfterWord rest then some (2, true) else none
  | '&' :: rest =>
    if prevW && boundaryAfterAmp rest then some (1, false) else none
  | _ => none

/-- Fuel-indexed left-to-right scan of
`re.sub(r"\b(ors?|anr|lrs?|&)\b", "", text)`: each step either removes a
match (non-overlapping, continuing after it) or keeps one character. -/
def removeNoiseF : Nat → Bool → List Char → List Char
  | 0, _, cs => cs
  | _ + 1, _, [] => []
  | fuel + 1, prevW, c :: t =>
    match noiseMatch prevW (c :: t) with
    | some (k, lastW) => removeNoiseF fuel lastW (List.drop k (c :: t))
    | none => c :: removeNoiseF fuel (pyWord c) t

/-- `re.sub(r"\b(ors?|anr|lrs?|&)\b", "", text)` on a character list
(every step consumes at least one character, so `cs.length` fuel
suffices). -/
def removeNoise (cs : List Char) : List Char :=
  removeNoiseF cs.length false cs

/-- `normalize_name` from supreme_court-checkpoint.py (lines 108-117):
lowercase, delete the legal noise tokens, replace remaining non-word
non-space characters by spaces, collapse whitespace, and strip. -/
def normalizeNameChars (cs : List Char) : List Char :=
  pyStrip (pyCollapse ((removeNoise (cs.map Char.toLower)).map pyPunctToSpace))

/-- String-level wrapper for `normalize_name`. -/
def normalize_name (s : String) : String :=
  String.mk (normalizeNameChars s.data)

end SC


/-- Head-of-list whitespace test. -/
def headSpace : List Char → Bool
  | [] => false
  | e :: _ => pySpace e

/-- Continuation of a `\s+v(?:s\.?)?\s+` match after the `v`/`V`:
greedy-with-backtracking alternatives `s.` + spaces, `s` + spaces, or
spaces; returns the remainder after the trailing whitespace run. -/
def vsAfterV : List Char → Option (List Char)
  | c :: d :: u =>
    if (c = 's' || c = 'S') && d = '.' && headSpace u then some (pyDropLead u)
    else if (c = 's' || c = 'S') && pySpace d then some (pyDropLead (d :: u))
    else if pySpace c then some (pyDropLead (c :: d :: u))
    else none
  | [c] => if pySpace c then some [] else none
  | [] => none

/-- Attempt to match `\s+v(?:s\.?)?\s+` (case-insensitive) at the current
position; on success returns the remainder after the match. -/
def vsMatch (cs : List Char) : Option (List Char) :=
  match cs with
  | c :: _ =>
    if pySpace c then
      match pyDropLead cs with
      | v :: rest => if v = 'v' || v = 'V' then vsAfterV rest else none
      | [] => none
    else none
  | [] => none

/-- Fuel-indexed scan of `re.split(r"\s+v(?:s\.?)?\s+", s, re.IGNORECASE)`:
left-to-right, non-overlapping matches become split points.  Every step
consumes at least one character, so `cs.length` fuel suffices. -/
def splitVsF : Nat → List Char → List Char → List (List Char)
  | 0, cur, rest => [cur.reverse ++ rest]
  | _ + 1, cur, [] => [cur.reverse]
  | fuel + 1, cur, c :: t =>
    match vsMatch (c :: t) with
    | some rest => cur.reverse :: splitVsF fuel [] rest
    | none => splitVsF fuel (c :: cur) t

/-- `re.split(r"\s+v(?:s\.?)?\s+", s, re.IGNORECASE)` on a character
list. -/
def splitVs (cs : List Char) : List (List Char) :=
  splitVsF cs.length [] cs

namespace Bombay

/-- `split_parties` from bombay_high_court.py (lines 10-18); the identical
function also appears in delhi_high_court-checkpoint.py (lines 81-89). -/
def split_parties (parties : String) : String × String :=
  if parties = "" then (("N/A"), ("N/A"))
  else
    match splitVs parties.data with
    | [a, b] => (String.mk (pyStrip a), String.mk (pyStrip b))
    | _ => (String.mk (pyStrip parties.data), ("N/A"))

/-- `normalize_text` from bombay_high_court.py (lines 20-21): replace
non-breaking spaces by spaces, collapse whitespace runs, and strip. -/
def normalizeTextChars (cs : List Char) : List Char :=
  pyStrip (pyCollapse (cs.map (fun c => if c = '\xa0' then ' ' else c)))

/-- String-level wrapper for Bombay's `normalize_text`. -/
def normalize_text (s : String) : String :=
  String.mk (normalizeTextChars s.data)

end Bombay

namespace Nclat

/-- `split_parties` from nclat.py (lines 184-188): same separator regex,
but no falsy guard and no stripping of the two parts. -/
def split_parties (parties : String) : String × String :=
  match splitVs parties.data with
  | [a, b] => (String.mk a, String.mk b)
  | _ => (parties, ("N/A"))

end Nclat

namespace SC

/-- Non-greedy scan for the closing character of `\{.*?\}` / `\[.*?\]`
(`.` does not match a newline): returns the remainder after the closer. -/
def findClose (cl : Char) : List Char → Option (List Char)
  | [] => none
  | c :: t => if c = cl then some t else if c = '\n' then none else findClose cl t

/-- Fuel-indexed scan of `re.sub(r"\{.*?\}|\[.*?\]", "", text)`. -/
def removeBracesF : Nat → List Char → List Char
  | 0, cs => cs
  | _ + 1, [] => []
  | fuel + 1, c :: t =>
    if c = '\x7b' then
      match findClose '\x7d' t with
      | some rest => removeBracesF fuel rest
      | none => c :: removeBracesF fuel t
    else if c = '[' then
      match findClose ']' t with
      | some rest => removeBracesF fuel rest
      | none => c :: removeBracesF fuel t
    else c :: removeBracesF fuel t

/-- `re.sub(r"\{.*?\}|\[.*?\]", "", text)` on a character list. -/
def removeBraces (cs : List Char) : List Char :=
  removeBracesF cs.length cs

/-- Case-insensitive literal match: `matchCI pat cs` consumes `pat`
(lower-case) from `cs`, comparing lowercased characters. -/
def matchCI : List Char → List Char → Option (List Char)
  | [], rest => some rest
  | p :: ps, c :: cs => if Char.toLower c = p then matchCI ps cs else none
  | _ :: _, [] => none

/-- Handle `\.?\b` after a word character: greedily take the dot (then the
next character must be a word character), or fall back to no dot (then the
next character must be a non-word character or the end). Returns the
remainder and whether the last matched character is a word character. -/
def optDot : List Char → Option (List Char × Bool)
  | '.' :: u =>
    if boundaryAfterAmp u then some (u, false)
    else if boundaryAfterWord ('.' :: u) then some ('.' :: u, true)
    else none
  | rest => if boundaryAfterWord rest then some (rest, true) else none

/-- The `\bvs\.?\b` / `\bv\.?\b` alternatives, given the characters after
the initial `v`. -/
def vsOrV (rest : List Char) : Option (List Char × Bool) :=
  match rest with
  | c :: tail =>
    if c = 's' || c = 'S' then
      match optDot tail with
      | some t2 => some t2
      | none => none
    else optDot rest
  | [] => optDot []

/-- Attempt to match `\bversus\b|\bvs\.?\b|\bv\.?\b` (case-insensitive,
alternatives in this order) at the current position; `prevW` says whether
the previous character is a word character (for the leading `\b`). -/
def scSplitMatch (prevW : Bool) (cs : List Char) : Option (List Char × Bool) :=
  match cs with
  | v :: rest =>
    if prevW || !(v = 'v' || v = 'V') then none
    else
      match matchCI (['e', 'r', 's', 'u', 's']) rest with
      | some tail => if boundaryAfterWord tail then some (tail, true) else vsOrV rest
      | none => vsOrV rest
  | [] => none

/-- Fuel-indexed scan of
`re.split(r"\bversus\b|\bvs\.?\b|\bv\.?\b", text, re.IGNORECASE)`. -/
def scSplitF : Nat → Bool → List Char → List Char → List (List Char)
  | 0, _, cur, rest => [cur.reverse ++ rest]
  | _ + 1, _, cur, [] => [cur.reverse]
  | fuel + 1, prevW, cur, c :: t =>
    match scSplitMatch prevW (c :: t) with
    | some (rest, lastW) => cur.reverse :: scSplitF fuel lastW [] rest
    | none => scSplitF fuel (pyWord c) (c :: cur) t

/-- `re.split(r"\bversus\b|\bvs\.?\b|\bv\.?\b", text, re.IGNORECASE)` on a
character list. -/
def scSplit (cs : List Char) : List (List Char) :=
  scSplitF cs.length false [] cs

/-- `split_petitioner_respondent` from supreme_court-checkpoint.py
(lines 119-129): falsy guard, curly/square-bracket group removal, split on
the separator alternation, and take the first two parts stripped. -/
def split_petitioner_respondent (party_text : String) : String × String :=
  if party_text = "" then (("N/A"), ("N/A"))
  else
    let text := removeBraces party_text.data
    match scSplit text with
    | a :: b :: _ => (String.mk (pyStrip a), String.mk (pyStrip b))
    | _ => (String.mk (pyStrip text), ("N/A"))

end SC


/-- Python `str.lower()` on a whole string (ASCII model). -/
def pyLowerStr (s : String) : String :=
  String.mk (s.data.map Char.toLower)

/-- Truthiness of a Python `str | None` value. -/
def truthyO : Option String → Bool
  | none => false
  | some s => !(s == (""))

/-- Python values as stored in the result dictionaries; `vnone` is Python
`None`. -/
inductive PyVal where
  | vnone : PyVal
  | vstr : String → PyVal
  | vlist : List PyVal → PyVal
  | vdict : List (String × PyVal) → PyVal

namespace Bombay

/-- A linked "with" sub-case (bombay_high_court.py lines 69-72). -/
structure WithCase where
  case_number : String
  details : String
  deriving DecidableEq

/-- The main-case dictionary built in `extract_cases_from_table`
(bombay_high_court.py lines 52-64). -/
structure BCase where
  case_number : String
  petitioner : String
  respondent : String
  advocates : String
  court : String
  judge : String
  court_no : String
  date : String
  court_time : String
  with_cases : List WithCase
  remarks : String
  deriving DecidableEq

/-- Loop state of `extract_cases_from_table`: accumulated results, whether
`current_main_case` is set (it is always the last appended record), and
`last_case_no`. -/
structure TState where
  results : List BCase
  hasCurrent : Bool
  last_case_no : Option String
  deriving DecidableEq

/-- The record literal of bombay_high_court.py lines 52-64. -/
def mkMainCase (bench court_time court_no date case_no petitioner respondent advocates : String) :
    BCase :=
  { case_number := case_no,
    petitioner := petitioner,
    respondent := respondent,
    advocates := if advocates = ("") then ("N/A") else advocates,
    court := ("Bombay High Court"),
    judge := bench,
    court_no := court_no,
    date := date,
    court_time := court_time,
    with_cases := [],
    remarks := ("") }

/-- Apply `f` to the last element of a list (Python mutates the dict that
`current_main_case` references, which is always the last appended one). -/
def updateLast (f : BCase → BCase) : List BCase → List BCase
  | [] => []
  | [x] => [f x]
  | x :: xs => x :: updateLast f xs

/-- Python `bool(re.fullmatch(r"\d+", s))`. -/
def isDigits (s : String) : Bool :=
  !s.data.isEmpty && s.data.all Char.isDigit

/-- One iteration of the row loop in `extract_cases_from_table`
(bombay_high_court.py lines 34-80): classify the row by cell count. -/
def processRow (bench court_time court_no date : String) (st : TState)
    (cells : List String) : TState :=
  match cells with
  | [c0, c1, c2, c3] =>
    let cl_no_raw := normalize_text c0
    let case_no := normalize_text c1
    let parties := normalize_text c2
    let advocates := normalize_text c3
    let pr := split_parties parties
    let is_cl_no := isDigits cl_no_raw
    let is_new_case := is_cl_no || (!(case_no == ("")) && !(st.last_case_no == some case_no))
    if is_new_case then
      { results := st.results ++
          [mkMainCase bench court_time court_no date case_no pr.1 pr.2 advocates],
        hasCurrent := true,
        last_case_no := some case_no }
    else if (pyLowerStr cl_no_raw == ("with")) && st.hasCurrent then
      let addWith : BCase → BCase :=
        fun c => { c with with_cases := c.with_cases ++ [⟨case_no, parties⟩] }
      { st with results := updateLast addWith st.results }
    else st
  | [c0] =>
    if st.hasCurrent then
      let text := normalize_text c0
      if !(text == ("")) then
        let addRemark : BCase → BCase :=
          fun c =>
            { c with remarks :=
                if c.remarks = ("") then text else c.remarks ++ ("\n") ++ text }
        { st with results := updateLast addRemark st.results }
      else st
    else st
  | _ => st

/-- `extract_cases_from_table` (bombay_high_court.py lines 25-82) over the
row texts of the rendered table. -/
def extract_cases_from_table (bench court_time court_no date : String)
    (rows : List (List String)) : List BCase :=
  (rows.foldl (processRow bench court_time court_no date)
      { results := [], hasCurrent := false, last_case_no := none }).results

/-- The normalized output dictionary built from each case in
bombay_high_court.py lines 181-194. -/
def toFields (c : BCase) : List (String × PyVal) :=
  [(("case_number"), PyVal.vstr c.case_number),
   (("petitioner"), PyVal.vstr c.petitioner),
   (("respondent"), PyVal.vstr c.respondent),
   (("advocates"), PyVal.vstr c.advocates),
   (("court"), PyVal.vstr c.court),
   (("judge"), PyVal.vstr c.judge),
   (("court_no"), PyVal.vstr c.court_no),
   (("date"), PyVal.vstr c.date),
   (("court_time"), PyVal.vstr c.court_time),
   (("remarks"), PyVal.vstr c.remarks),
   (("with_cases"), PyVal.vlist (c.with_cases.map (fun w =>
      PyVal.vdict [(("case_number"), PyVal.vstr w.case_number),
                   (("details"), PyVal.vstr w.details)])))]

/-- Outcome of `page.wait_for_selector("#tb_causelist")`
(bombay_high_court.py lines 119-125). -/
inductive WaitOutcome where
  | ok : WaitOutcome
  | timeout : WaitOutcome

/-- Browser-session environment for one Bombay `search` call: the wait
outcome, and the cases produced by the DOM walk of lines 139-176 when the
result table does appear. -/
structure BEnv where
  waitOutcome : WaitOutcome
  tableCases : List BCase

/-- `search` from bombay_high_court.py (lines 86-199).  The boolean output
records whether any browser activity was issued; a `PlaywrightTimeout` on
the result-table wait is re-raised as an `Exception` (line 125). -/
def search (party_name : String) (date : Option String) (env : BEnv) :
    Except String (List (List (String × PyVal))) × Bool :=
  if (party_name == ("")) || !truthyO date then (Except.ok [], false)
  else
    match env.waitOutcome with
    | WaitOutcome.timeout => (Except.error ("Bombay HC: #tb_causelist not found."), true)
    | WaitOutcome.ok => (Except.ok (env.tableCases.map toFields), true)

end Bombay

namespace RangeScan

/-- `okList` projects the records of a successful day; a failed day
contributes nothing. -/
def okList {α E : Type} : Except E (List α) → List α
  | Except.ok rs => rs
  | Except.error _ => []

/-- The calendar days of the inclusive range `[s, e]`, in chronological
order (dates are modelled as day ordinals). -/
def daysList (s e : Nat) : List Nat :=
  (List.range (e + 1 - s)).map (fun i => s + i)

/-- Concatenation of `f` over a list of days, in order. -/
def concatAll {α : Type} (f : Nat → List α) : List Nat → List α
  | [] => []
  | d :: t => f d ++ concatAll f t

/-- `search_range` as written identically in bombay_high_court.py
(lines 203-235) and supreme_court-checkpoint.py (lines 248-273): reject an
inverted range, then walk the days in order, extending the accumulator on
success and skipping (with a log line) any day whose `search` raises. -/
def search_range {α E : Type} (day : Nat → Except E (List α)) (s e : Nat) :
    Except String (List α) :=
  if s > e then Except.error ("Start date cannot be after end date")
  else
    Except.ok ((daysList s e).foldl
      (fun acc d =>
        match day d with
        | Except.ok rs => acc ++ rs
        | Except.error _ => acc)
      [])

end RangeScan

namespace SC

/-- The cached file path of supreme_court-checkpoint.py line 95. -/
def pdf_path (cause_date : String) : String :=
  ("data/sc_cause_list_") ++ cause_date ++ (".pdf")

/-- The download URL of supreme_court-checkpoint.py line 96. -/
def sc_url (cause_date : String) : String :=
  ("https://api.sci.gov.in/jonew/cl/") ++ cause_date ++ ("/M_J_1.pdf")

/-- `download_pdf` from supreme_court-checkpoint.py (lines 94-104).  The
cache is the set of existing file paths; `fetch` models `requests.get`
followed by `raise_for_status`.  Returns the path, the new cache state,
and the number of network downloads performed. -/
def download_pdf (files : List String) (cause_date : String)
    (fetch : String → Except String Unit) :
    Except String (String × List String × Nat) :=
  let p := pdf_path cause_date
  if p ∈ files then Except.ok (p, files, 0)
  else
    match fetch (sc_url cause_date) with
    | Except.error e => Except.error e
    | Except.ok _ => Except.ok (p, p :: files, 1)

/-- Phase-1 page matching of `search` (supreme_court-checkpoint.py
lines 175-188): literal substring of the normalized text, or the
all-tokens fallback. -/
def page_matches (party_name text : String) : Bool :=
  let name_norm := normalize_name party_name
  let page_norm := normalize_name text
  containsSub name_norm.data page_norm.data ||
    (!(splitWs name_norm.data).isEmpty &&
      (splitWs name_norm.data).all (fun t => containsSub t page_norm.data))

end SC

namespace Nclat

/-- The file path used by `download_pdfs` (nclat.py line 166). -/
def savePath (fname : String) : String :=
  ("nclat_pdfs/") ++ fname

/-- The per-row caching step of `download_pdfs` (nclat.py lines 164-174):
download only when the file does not already exist.  Returns the new set
of existing paths and the number of downloads performed. -/
def fetchStep (files : List String) (fname : String) (url : String)
    (fetch : String → Except String Unit) :
    Except String (List String × Nat) :=
  let p := savePath fname
  if p ∈ files then Except.ok (files, 0)
  else
    match fetch url with
    | Except.error e => Except.error e
    | Except.ok _ => Except.ok (p :: files, 1)

/-- Page matching in `search_party_in_pdf` (nclat.py line 213): the page
is kept iff the normalized party is a literal substring of the normalized
page text (no token fallback). -/
def page_matches (party_name text : String) : Bool :=
  containsSub (normalize party_name).data (normalize text).data

/-- One extraction row returned by the OpenAI call (the `CauseMatch`
pydantic model, nclat.py lines 20-26). -/
structure CauseMatch where
  case_number : String
  parties : String
  appellant_counsel : String
  respondent_counsel : String
  court_no : String
  judges : String

/-- `ai_extract` from nclat.py (lines 83-111): the whole OpenAI call is
wrapped in try/except and any failure yields an empty list. -/
def ai_extract (call : Except String (List CauseMatch)) : List CauseMatch :=
  match call with
  | Except.ok rows => rows
  | Except.error _ => []

/-- The result dictionary built for each extracted row in `search_range`
(nclat.py lines 244-256); note the literal `"date": None`. -/
def recordFields (r : CauseMatch) : List (String × PyVal) :=
  let pr := split_parties r.parties
  [(("case_number"), PyVal.vstr r.case_number),
   (("petitioner"), PyVal.vstr pr.1),
   (("respondent"), PyVal.vstr pr.2),
   (("advocates"), PyVal.vstr (("A: ") ++ r.appellant_counsel ++ (" | R: ") ++ r.respondent_counsel)),
   (("court"), PyVal.vstr ("NCLAT")),
   (("judge"), PyVal.vstr r.judges),
   (("court_no"), PyVal.vstr r.court_no),
   (("date"), PyVal.vnone)]

end Nclat

namespace Delhi

/-- `search` from delhi_high_court-checkpoint.py (lines 93-203): the falsy
guard of lines 94-95 returns an empty list before any network request; the
remainder of the body is abstracted as `body`.  The boolean output records
whether any network activity was issued. -/
def search (α : Type) (party_name : String) (date : Option String)
    (body : Unit → Except String (List α) × Bool) :
    Except String (List α) × Bool :=
  if (party_name == ("")) || !truthyO date then (Except.ok [], false)
  else body ()

/-- `monitor` from delhi_high_court-checkpoint.py (lines 235-373): the
whole body runs under try/except and any exception returns an empty
list. -/
def monitor (α : Type) (attempt : Except String (List α)) : List α :=
  match attempt with
  | Except.ok rs => rs
  | Except.error _ => []

end Delhi

namespace Cerc

/-- JSON values as produced by `json.loads`. -/
inductive Json where
  | jnull : Json
  | jbool : Bool → Json
  | jnum : Int → Json
  | jstr : String → Json
  | jarr : List Json → Json
  | jobj : List (String × Json) → Json

/-- Dictionary lookup. -/
def lookup (k : String) : List (String × Json) → Option Json
  | [] => none
  | (k2, v) :: t => if k2 = k then some v else lookup k t

/-- Python dict assignment `d[k] = v`. -/
def setKey (k : String) (v : Json) (fields : List (String × Json)) :
    List (String × Json) :=
  if fields.any (fun kv => kv.1 == k) then
    fields.map (fun kv => if kv.1 == k then (k, v) else kv)
  else fields ++ [(k, v)]

/-- Python `c.get("petitioner", "")` followed by `.lower()`: a missing key
gives the default, a string value is returned, and a non-string value
raises `AttributeError` at `.lower()`. -/
def getPetitioner (fields : List (String × Json)) : Except String String :=
  match lookup ("petitioner") fields with
  | none => Except.ok ("")
  | some (Json.jstr s) => Except.ok s
  | some _ => Except.error ("AttributeError")

/-- One element of the `for c in cases` loop (cerc-checkpoint.py
lines 123-127): a non-dict element raises `AttributeError` at `c.get`. -/
def processElem (party pdfName : String) (pageNo : Int) (c : Json) :
    Except String (List Json) :=
  match c with
  | Json.jobj fields =>
    match getPetitioner fields with
    | Except.error e => Except.error e
    | Except.ok pet =>
      if containsSub (pyLowerStr party).data (pyLowerStr pet).data then
        Except.ok [Json.jobj (setKey ("page") (Json.jnum pageNo)
          (setKey ("source_pdf") (Json.jstr pdfName) fields))]
      else Except.ok []
  | _ => Except.error ("AttributeError")

/-- Python iteration over the value bound by `json.loads`: lists iterate
their elements, dicts their keys, strings their characters; anything else
raises `TypeError`. -/
def pyElems : Json → Except String (List Json)
  | Json.jarr l => Except.ok l
  | Json.jobj fields => Except.ok (fields.map (fun kv => Json.jstr kv.1))
  | Json.jstr s => Except.ok (s.data.map (fun ch => Json.jstr (String.mk [ch])))
  | _ => Except.error ("TypeError")

/-- The `for c in cases` loop with the `results` accumulator. -/
def elemsLoop (party pdfName : String) (pageNo : Int) :
    List Json → List Json → Except String (List Json)
  | acc, [] => Except.ok acc
  | acc, c :: rest =>
    match processElem party pdfName pageNo c with
    | Except.error e => Except.error e
    | Except.ok rs => elemsLoop party pdfName pageNo (acc ++ rs) rest

/-- One page of the `search` loop of cerc-checkpoint.py (lines 108-127):
its extracted text, and the outcome of `json.loads` on the `ai_extract`
output (`none` means the payload was not valid JSON). -/
structure PageIn where
  pdfName : String
  pageNo : Int
  text : String
  parsed : Option Json

/-- Processing of a single page (cerc-checkpoint.py lines 110-127): skip
pages not mentioning the party, skip pages whose payload fails
`json.loads`, otherwise run the element loop. -/
def processPage (party : String) (pg : PageIn) : Except String (List Json) :=
  if !containsSub (pyLowerStr party).data (pyLowerStr pg.text).data then Except.ok []
  else
    match pg.parsed with
    | none => Except.ok []
    | some j =>
      match pyElems j with
      | Except.error e => Except.error e
      | Except.ok elems => elemsLoop party pg.pdfName pg.pageNo [] elems

/-- The page loop of `search` with its `results` accumulator; an exception
anywhere aborts the whole call. -/
def searchAux (party : String) : List Json → List PageIn → Except String (List Json)
  | acc, [] => Except.ok acc
  | acc, pg :: rest =>
    match processPage party pg with
    | Except.error e => Except.error e
    | Except.ok rs => searchAux party (acc ++ rs) rest

/-- `search` from cerc-checkpoint.py (lines 103-129), over the pages of
the fetched PDFs. -/
def search (party : String) (pages : List PageIn) : Except String (List Json) :=
  searchAux party [] pages

end Cerc

/-- Claim C10: when the party name is empty/None or the date is
empty/None, both the Bombay and the Delhi `search` return the empty list
immediately, before issuing any network or browser activity (the boolean
component of the result records whether any such activity was issued). -/
theorem C10_falsy_guard :
    (∀ (party : String) (date : Option String) (env : Bombay.BEnv),
        ((party == ("")) || !truthyO date) = true →
        Bombay.search party date env = (Except.ok [], false)) ∧
    (∀ (α : Type) (party : String) (date : Option String)
        (body : Unit → Except String (List α) × Bool),
        ((party == ("")) || !truthyO date) = true →
        Delhi.search α party date body = (Except.ok [], false)) := by
  constructor
  · intro party date env h
    simp [Bombay.search, h]
  · intro α party date body h
    simp [Delhi.search, h]

theorem C10_falsy_guard_witness :
    Bombay.search ("") (some ("01-01-2024")) ⟨Bombay.WaitOutcome.ok, []⟩ =
      (Except.ok [], false) ∧
    Delhi.search Nat ("Ramesh") none (fun _ => (Except.error ("net down"), true)) =
      (Except.ok [], false) :=
  ⟨C10_falsy_guard.1 ("") (some ("01-01-2024")) ⟨Bombay.WaitOutcome.ok, []⟩ (by decide),
   C10_falsy_guard.2 Nat ("Ramesh") none (fun _ => (Except.error ("net down"), true)) (by decide)⟩

/-- Claim C3 counterexample: when the result-table wait times out, the
Bombay `search` does not return an empty list — it raises the exception of
bombay_high_court.py line 125, which crosses the public `search`
boundary. -/
theorem C3_counterexample :
    (Bombay.search ("Ramesh") (some ("01-01-2024"))
        ⟨Bombay.WaitOutcome.timeout, []⟩).1 =
      Except.error ("Bombay HC: #tb_causelist not found.") := rfl

/-- Claim C3 (amended): the Delhi `monitor` returns an empty list on any
automation failure, but the Bombay `search` raises an exception when the
result-table wait times out (only its `search_range` caller catches
it). -/
theorem C3_amended :
    (∀ (α : Type) (e : String), Delhi.monitor α (Except.error e) = []) ∧
    (∀ (party : String) (date : Option String) (env : Bombay.BEnv),
        ((party == ("")) || !truthyO date) = false →
        env.waitOutcome = Bombay.WaitOutcome.timeout →
        (Bombay.search party date env).1 =
          Except.error ("Bombay HC: #tb_causelist not found.")) := by
  constructor
  · intro α e
    rfl
  · intro party date env hguard hwait
    simp [Bombay.search, hguard, hwait]

theorem C3_amended_witness :
    Delhi.monitor Nat (Except.error ("element not found")) = [] ∧
    (Bombay.search ("Ramesh") (some ("01-01-2024"))
        ⟨Bombay.WaitOutcome.timeout, []⟩).1 =
      Except.error ("Bombay HC: #tb_causelist not found.") :=
  ⟨C3_amended.1 Nat ("element not found"),
   C3_amended.2 ("Ramesh") (some ("01-01-2024")) ⟨Bombay.WaitOutcome.timeout, []⟩
     (by decide) rfl⟩

/-- A concrete extraction row for the nclat record builder. -/
def C4row : Nclat.CauseMatch :=
  ⟨("TA 1/2024"), ("A vs B"), ("X"), ("Y"), ("I"), ("HMJ Ashok")⟩

/-- Claim C4 counterexample: the record built by nclat's `search_range`
always carries `"date": None` (nclat.py line 255), so a field of a record
returned by a public search operation is None. -/
theorem C4_counterexample :
    List.lookup ("date") (Nclat.recordFields C4row) = some PyVal.vnone := rfl

/-- Claim C4 (amended): every field of a Bombay result record is non-None,
and every field of an nclat result record except `date` is non-None; the
nclat `date` field is always None. -/
theorem C4_amended :
    (∀ (c : Bombay.BCase) (kv : String × PyVal),
        kv ∈ Bombay.toFields c → kv.2 ≠ PyVal.vnone) ∧
    (∀ r : Nclat.CauseMatch,
        ((("date"), PyVal.vnone) ∈ Nclat.recordFields r) ∧
        ∀ kv : String × PyVal,
          kv ∈ Nclat.recordFields r → kv.1 ≠ ("date") → kv.2 ≠ PyVal.vnone) := by
  constructor
  · intro c kv hkv
    simp only [Bombay.toFields, List.mem_cons, List.not_mem_nil, or_false] at hkv
    rcases hkv with rfl | rfl | rfl | rfl | rfl | rfl | rfl | rfl | rfl | rfl | rfl <;> simp
  · intro r
    constructor
    · simp [Nclat.recordFields]
    · intro kv hkv hne
      simp only [Nclat.recordFields, List.mem_cons, List.not_mem_nil, or_false] at hkv
      rcases hkv with rfl | rfl | rfl | rfl | rfl | rfl | rfl | rfl
      · simp
      · simp
      · simp
      · simp
      · simp
      · simp
      · simp
      · exact absurd rfl hne

/-- A concrete Bombay record for the C4 witness. -/
def C4bcase : Bombay.BCase :=
  ⟨("1"), ("A"), ("B"), ("N/A"), ("Bombay High Court"), ("J"), ("7"),
   ("01-01-2024"), ("AT 11.00 A.M."), [], ("")⟩

theorem C4_amended_witness :
    ((("petitioner"), PyVal.vstr ("A")).2 ≠ PyVal.vnone) ∧
    ((("date"), PyVal.vnone) ∈ Nclat.recordFields C4row) :=
  ⟨C4_amended.1 C4bcase ((("petitioner"), PyVal.vstr ("A")))
      (by simp [Bombay.toFields, C4bcase]),
   (C4_amended.2 C4row).1⟩

/-- Claim C5: the document caches never re-download: for the supreme-court
`download_pdf` and the nclat per-file step, a first call on an absent path
performs exactly one download, and any second call for the same identity
returns the existing path and performs zero downloads, whatever the
fetcher does. -/
theorem C5_cache_single_download (files : List String) (d fname url : String)
    (fetch : String → Except String Unit)
    (h1 : SC.pdf_path d ∉ files)
    (h2 : fetch (SC.sc_url d) = Except.ok ())
    (g1 : Nclat.savePath fname ∉ files)
    (g2 : fetch url = Except.ok ()) :
    (SC.download_pdf files d fetch =
        Except.ok (SC.pdf_path d, SC.pdf_path d :: files, 1) ∧
      ∀ fetch2 : String → Except String Unit,
        SC.download_pdf (SC.pdf_path d :: files) d fetch2 =
          Except.ok (SC.pdf_path d, SC.pdf_path d :: files, 0)) ∧
    (Nclat.fetchStep files fname url fetch =
        Except.ok (Nclat.savePath fname :: files, 1) ∧
      ∀ fetch2 : String → Except String Unit,
        Nclat.fetchStep (Nclat.savePath fname :: files) fname url fetch2 =
          Except.ok (Nclat.savePath fname :: files, 0)) := by
  refine ⟨⟨?_, ?_⟩, ?_, ?_⟩
  · simp [SC.download_pdf, h1, h2]
  · intro fetch2
    simp [SC.download_pdf]
  · simp [Nclat.fetchStep, g1, g2]
  · intro fetch2
    simp [Nclat.fetchStep]

theorem C5_cache_single_download_witness :
    SC.download_pdf [] ("2024-01-01") (fun _ => Except.ok ()) =
      Except.ok (SC.pdf_path ("2024-01-01"), [SC.pdf_path ("2024-01-01")], 1) ∧
    SC.download_pdf [SC.pdf_path ("2024-01-01")] ("2024-01-01")
        (fun _ => Except.error ("network dead")) =
      Except.ok (SC.pdf_path ("2024-01-01"), [SC.pdf_path ("2024-01-01")], 0) :=
  have h := C5_cache_single_download [] ("2024-01-01") ("x.pdf") ("u")
    (fun _ => Except.ok ()) (by simp) rfl (by simp) rfl
  ⟨h.1.1, h.1.2 (fun _ => Except.error ("network dead"))⟩

/-- Claim C6 counterexample: the token-fallback condition holds (every
whitespace token of the normalized party occurs in the normalized text)
yet the nclat matcher returns false, because it only tests for a literal
substring. -/
theorem C6_counterexample :
    ((splitWs (Nclat.normalize ("Ramesh Kumar")).data).all
        (fun t => containsSub t (Nclat.normalize ("Kumar Ramesh")).data) = true) ∧
    (!(splitWs (Nclat.normalize ("Ramesh Kumar")).data).isEmpty = true) ∧
    Nclat.page_matches ("Ramesh Kumar") ("Kumar Ramesh") = false := by
  decide

/-- Claim C6 (amended): the supreme-court matcher returns true whenever
the normalized party is a literal substring of the normalized text, and
also under the all-tokens fallback; the nclat matcher returns true under
the substring condition only. -/
theorem C6_amended :
    (∀ (party text : String),
        containsSub (SC.normalize_name party).data (SC.normalize_name text).data = true →
        SC.page_matches party text = true) ∧
    (∀ (party text : String),
        (!(splitWs (SC.normalize_name party).data).isEmpty) = true →
        (splitWs (SC.normalize_name party).data).all
            (fun t => containsSub t (SC.normalize_name text).data) = true →
        SC.page_matches party text = true) ∧
    (∀ (party text : String),
        containsSub (Nclat.normalize party).data (Nclat.normalize text).data = true →
        Nclat.page_matches party text = true) := by
  refine ⟨?_, ?_, ?_⟩
  · intro party text h
    simp [SC.page_matches, h]
  · intro party text h1 h2
    simp [SC.page_matches, h1, h2]
  · intro party text h
    simpa [Nclat.page_matches] using h

theorem C6_amended_witness :
    SC.page_matches ("Ramesh") ("Shri Ramesh Kumar") = true ∧
    SC.page_matches ("Ramesh Kumar") ("Kumar Anil Ramesh") = true ∧
    Nclat.page_matches ("Ram") ("Ram v Shyam") = true :=
  ⟨C6_amended.1 ("Ramesh") ("Shri Ramesh Kumar") (by decide),
   C6_amended.2.1 ("Ramesh Kumar") ("Kumar Anil Ramesh") (by decide) (by decide),
   C6_amended.2.2 ("Ram") ("Ram v Shyam") (by decide)⟩

/-- Claim C9 counterexample: the supreme-court `normalize_name` is not
idempotent: on `"o&rs"` one pass removes only the ampersand, producing
`"ors"`, and a second pass removes the noise token `"ors"` entirely. -/
theorem C9_counterexample :
    SC.normalize_name (SC.normalize_name ("o&rs")) ≠ SC.normalize_name ("o&rs") := by
  decide

/-- Claim C9 (amended): the nclat `normalize` and the delhi
`normalize_text` are idempotent, but the supreme-court `normalize_name` is
not. -/
theorem C9_amended :
    (∀ s : String, Nclat.normalize (Nclat.normalize s) = Nclat.normalize s) ∧
    (∀ s : String, Delhi.normalize_text (Delhi.normalize_text s) = Delhi.normalize_text s) ∧
    SC.normalize_name (SC.normalize_name ("o&rs")) ≠ SC.normalize_name ("o&rs") :=
  ⟨Nclat.normalize_idem, Delhi.normalize_text_idem, by decide⟩

/-- Claim C7: any 4-cell row whose (normalized) leading cell is a nonempty
digit string — including "0" — appends a new main case and never touches
the previously accumulated records. -/
theorem C7_digit_row_new_case (bench court_time court_no date : String)
    (st : Bombay.TState) (c0 c1 c2 c3 : String)
    (h : Bombay.isDigits (Bombay.normalize_text c0) = true) :
    Bombay.processRow bench court_time court_no date st [c0, c1, c2, c3] =
      { results := st.results ++
          [Bombay.mkMainCase bench court_time court_no date (Bombay.normalize_text c1)
            (Bombay.split_parties (Bombay.normalize_text c2)).1
            (Bombay.split_parties (Bombay.normalize_text c2)).2
            (Bombay.normalize_text c3)],
        hasCurrent := true,
        last_case_no := some (Bombay.normalize_text c1) } := by
  simp [Bombay.processRow, h]

theorem C7_digit_row_new_case_witness :
    Bombay.processRow ("BENCH A") ("AT 11.00 A.M.") ("7") ("01-01-2024")
        ⟨[], false, none⟩ [("0"), ("WP 1/2024"), ("A vs B"), ("Adv X")] =
      ⟨[⟨("WP 1/2024"), ("A"), ("B"), ("Adv X"), ("Bombay High Court"), ("BENCH A"),
          ("7"), ("01-01-2024"), ("AT 11.00 A.M."), [], ("")⟩],
        true, some (("WP 1/2024"))⟩ :=
  (C7_digit_row_new_case ("BENCH A") ("AT 11.00 A.M.") ("7") ("01-01-2024")
      ⟨[], false, none⟩ ("0") ("WP 1/2024") ("A vs B") ("Adv X") (by decide)).trans
    (by decide)

theorem rangeFoldl_eq {α E : Type} (day : Nat → Except E (List α)) :
    ∀ (l : List Nat) (acc : List α),
      l.foldl (fun a d =>
        match day d with
        | Except.ok rs => a ++ rs
        | Except.error _ => a) acc
      = acc ++ RangeScan.concatAll (fun d => RangeScan.okList (day d)) l := by
  intro l
  induction l with
  | nil =>
    intro acc
    simp [RangeScan.concatAll]
  | cons d t ih =>
    intro acc
    rw [List.foldl_cons, ih]
    cases hd : day d with
    | ok rs => simp [RangeScan.concatAll, hd, RangeScan.okList, List.append_assoc]
    | error e => simp [RangeScan.concatAll, hd, RangeScan.okList]

theorem okList_ok {α E : Type} (rs : List α) :
    RangeScan.okList (Except.ok rs : Except E (List α)) = rs := rfl

theorem okList_error {α E : Type} (e : E) :
    RangeScan.okList (Except.error e : Except E (List α)) = [] := rfl

theorem concatAll_cons {α : Type} (g : Nat → List α) (d : Nat) (t : List Nat) :
    RangeScan.concatAll g (d :: t) = g d ++ RangeScan.concatAll g t := rfl

theorem concatAll_okList_filter {α E : Type} (day : Nat → Except E (List α)) (f : Nat)
    (err : E) (good : Nat → List α) (hf : day f = Except.error err) :
    ∀ l : List Nat, (∀ d ∈ l, d ≠ f → day d = Except.ok (good d)) →
      RangeScan.concatAll (fun d => RangeScan.okList (day d)) l
        = RangeScan.concatAll good (l.filter (fun d => d != f)) := by
  intro l
  induction l with
  | nil => intro _; rfl
  | cons d t ih =>
    intro h
    have ih2 := ih (fun x hx hxf => h x (List.mem_cons_of_mem _ hx) hxf)
    by_cases hdf : d = f
    · subst hdf
      simp only [concatAll_cons, hf, okList_error, List.nil_append]
      rw [ih2]
      simp [List.filter_cons]
    · have hd := h d (List.mem_cons_self _ _) hdf
      simp only [concatAll_cons, hd, okList_ok]
      rw [ih2]
      have hne : (d != f) = true := by simp [hdf]
      simp [List.filter_cons, hne, concatAll_cons]

/-- Claim C1: over a valid inclusive range in which exactly one day's
search raises, `search_range` still returns, in chronological order, the
concatenation of the records of every other day: the failing day
contributes nothing and never aborts the range. -/
theorem C1_range_single_failure_isolated {α E : Type} (day : Nat → Except E (List α))
    (s e f : Nat) (err : E) (good : Nat → List α)
    (hse : s ≤ e)
    (_hmem : f ∈ RangeScan.daysList s e)
    (hf : day f = Except.error err)
    (hok : ∀ d ∈ RangeScan.daysList s e, d ≠ f → day d = Except.ok (good d)) :
    RangeScan.search_range day s e =
      Except.ok (RangeScan.concatAll good
        ((RangeScan.daysList s e).filter (fun d => d != f))) := by
  unfold RangeScan.search_range
  rw [if_neg (by omega)]
  rw [rangeFoldl_eq day (RangeScan.daysList s e) []]
  rw [concatAll_okList_filter day f err good hf (RangeScan.daysList s e) hok]
  simp

/-- A per-day search for the C1 witness: day 1 of the range fails. -/
def C1day : Nat → Except String (List Nat) :=
  fun d =>
    if d = 0 then Except.ok [10]
    else if d = 1 then Except.error ("day failed")
    else Except.ok [20]

/-- The successful days' records for the C1 witness. -/
def C1good : Nat → List Nat :=
  fun d => if d = 0 then [10] else [20]

theorem C1_witness :
    RangeScan.search_range C1day 0 2 = Except.ok [10, 20] :=
  (C1_range_single_failure_isolated C1day 0 2 1 ("day failed") C1good
      (by decide) (by decide) rfl
      (by
        intro d hd hne
        have hlist : RangeScan.daysList 0 2 = [0, 1, 2] := by decide
        rw [hlist] at hd
        simp only [List.mem_cons, List.not_mem_nil, or_false] at hd
        rcases hd with rfl | rfl | rfl
        · rfl
        · exact absurd rfl hne
        · rfl)).trans
    (congrArg Except.ok (by decide))

theorem vsMatch_nonspace {c : Char} (h : pySpace c = false) (t : List Char) :
    vsMatch (c :: t) = none := by
  simp [vsMatch, h]

theorem splitVsF_no_space : ∀ (cs cur : List Char) (fuel : Nat),
    (∀ c ∈ cs, pySpace c = false) → cs.length ≤ fuel →
    splitVsF fuel cur cs = [cur.reverse ++ cs] := by
  intro cs
  induction cs with
  | nil =>
    intro cur fuel _ _
    cases fuel with
    | zero => rfl
    | succ n => simp [splitVsF]
  | cons c t ih =>
    intro cur fuel h hlen
    cases fuel with
    | zero =>
      exfalso
      simp at hlen
    | succ n =>
      have hc : pySpace c = false := h c (List.mem_cons_self _ _)
      have hlen2 : t.length ≤ n := by
        simp only [List.length_cons] at hlen
        omega
      simp only [splitVsF, vsMatch_nonspace hc]
      rw [ih (c :: cur) n (fun d hd => h d (List.mem_cons_of_mem _ hd)) hlen2]
      simp

theorem splitVs_no_space {cs : List Char} (h : ∀ c ∈ cs, pySpace c = false) :
    splitVs cs = [cs] := by
  unfold splitVs
  rw [splitVsF_no_space cs [] cs.length h (Nat.le_refl _)]
  simp

theorem pyDropTrail_no_space : ∀ {cs : List Char},
    (∀ c ∈ cs, pySpace c = false) → pyDropTrail cs = cs := by
  intro cs
  induction cs with
  | nil => intro _; rfl
  | cons c t ih =>
    intro h
    have ht := ih (fun d hd => h d (List.mem_cons_of_mem _ hd))
    have hc := h c (List.mem_cons_self _ _)
    cases t with
    | nil =>
      rw [pyDropTrail_cons_nil (show pyDropTrail [] = [] from rfl), if_neg (by simp [hc])]
    | cons e u =>
      exact pyDropTrail_cons_cons ht

theorem pyStrip_no_space {cs : List Char} (h : ∀ c ∈ cs, pySpace c = false) :
    pyStrip cs = cs := by
  unfold pyStrip
  have h1 : pyDropLead cs = cs := by
    cases cs with
    | nil => rfl
    | cons c t => exact pyDropLead_cons_nonspace (h c (List.mem_cons_self _ _)) t
  rw [h1]
  exact pyDropTrail_no_space h

theorem string_mk_data (s : String) : String.mk s.data = s := by
  cases s
  rfl

/-- Claim C2 counterexample: the Bombay `split_parties` regex
`\s+v(?:s\.?)?\s+` cannot match the separator "versus", so
`split_parties("A versus B")` is not `("A", "B")`. -/
theorem C2_counterexample :
    Bombay.split_parties ("A versus B") ≠ (("A"), ("B")) := by
  decide

/-- Claim C2 (amended): the Bombay `split_parties` splits only on a
whitespace-delimited case-insensitive "v"/"vs"/"vs." separator — so
"A vs B" splits but "A versus B" does not — while the supreme-court
`split_petitioner_respondent` also splits on "versus"; in both, when no
separator is found the entire (stripped) string becomes the petitioner
with respondent "N/A". -/
theorem C2_amended :
    Bombay.split_parties ("A vs B") = (("A"), ("B")) ∧
    Bombay.split_parties ("A versus B") = (("A versus B"), ("N/A")) ∧
    SC.split_petitioner_respondent ("A vs B") = (("A"), ("B")) ∧
    SC.split_petitioner_respondent ("A versus B") = (("A"), ("B")) ∧
    SC.split_petitioner_respondent ("SoloName") = (("SoloName"), ("N/A")) ∧
    (∀ s : String, s ≠ ("") → (∀ c ∈ s.data, pySpace c = false) →
      Bombay.split_parties s = (s, ("N/A"))) := by
  refine ⟨by decide, by decide, by decide, by decide, by decide, ?_⟩
  intro s hne hns
  unfold Bombay.split_parties
  rw [if_neg hne, splitVs_no_space hns]
  show (String.mk (pyStrip s.data), ("N/A")) = (s, ("N/A"))
  rw [pyStrip_no_space hns, string_mk_data]

theorem C2_amended_witness :
    Bombay.split_parties ("SoloName") = (("SoloName"), ("N/A")) :=
  C2_amended.2.2.2.2.2 ("SoloName") (by decide) (by decide)

theorem processPage_parse_failed {party : String} {pg : Cerc.PageIn}
    (h : pg.parsed = none) : Cerc.processPage party pg = Except.ok [] := by
  simp [Cerc.processPage, h]

theorem searchAux_skip {party : String} {pg : Cerc.PageIn} (h : pg.parsed = none) :
    ∀ (xs : List Cerc.PageIn) (acc : List Cerc.Json) (ys : List Cerc.PageIn),
      Cerc.searchAux party acc (xs ++ pg :: ys) = Cerc.searchAux party acc (xs ++ ys) := by
  intro xs
  induction xs with
  | nil =>
    intro acc ys
    simp only [List.nil_append, Cerc.searchAux, processPage_parse_failed h]
    rw [List.append_nil]
  | cons x xs ih =>
    intro acc ys
    simp only [List.cons_append, Cerc.searchAux]
    cases hx : Cerc.processPage party x with
    | error e => rfl
    | ok rs => exact ih (acc ++ rs) ys

/-- The schema-violating pages for the C8 counterexample: page 1's
extraction output parses to the JSON number 5 (valid JSON, not a list of
objects), page 2's parses to a well-formed singleton list. -/
def C8pages : List Cerc.PageIn :=
  [⟨("cl.pdf"), 1, ("acme power"), some (Cerc.Json.jnum 5)⟩,
   ⟨("cl.pdf"), 2, ("acme power"),
     some (Cerc.Json.jarr [Cerc.Json.jobj [(("petitioner"), Cerc.Json.jstr ("acme power"))]])⟩]

/-- Claim C8 counterexample: in the cerc `search`, a page whose extraction
output is valid JSON but schema-violating (here the number 5) raises a
`TypeError` out of the whole call — it is not skipped, and processing of
the later well-formed page is aborted with it. -/
theorem C8_counterexample :
    Cerc.search ("acme") C8pages = Except.error ("TypeError") := rfl

/-- Claim C8 (amended): a page whose extraction output is not valid JSON
contributes zero records and leaves the processing of all other pages
unchanged (in cerc, and nclat's `ai_extract` returns an empty list on any
extraction failure); but valid-JSON schema-violating output raises in
cerc. -/
theorem C8_amended :
    (∀ (party : String) (xs ys : List Cerc.PageIn) (pg : Cerc.PageIn),
        pg.parsed = none →
        Cerc.search party (xs ++ pg :: ys) = Cerc.search party (xs ++ ys)) ∧
    (∀ e : String, Nclat.ai_extract (Except.error e) = []) := by
  constructor
  · intro party xs ys pg h
    exact searchAux_skip h xs [] ys
  · intro e
    rfl

/-- The well-formed page used in the C8 witness. -/
def C8tail : List Cerc.PageIn :=
  [⟨("cl.pdf"), 2, ("acme power"),
    some (Cerc.Json.jarr [Cerc.Json.jobj [(("petitioner"), Cerc.Json.jstr ("acme power"))]])⟩]

theorem C8_amended_witness :
    Cerc.search ("acme") (⟨("cl.pdf"), 1, ("acme power"), none⟩ :: C8tail) =
      Cerc.search ("acme") C8tail ∧
    Nclat.ai_extract (Except.error ("openai failed")) = [] :=
  ⟨C8_amended.1 ("acme") [] C8tail ⟨("cl.pdf"), 1, ("acme power"), none⟩ rfl,
   C8_amended.2 ("openai failed")⟩
